import Mathlib

/-!
Verification of the request/transport layer of the zendesk-mcp-cloudflare
repository: a shallow embedding, in Lean 4, of the pure logic of
`src/zendesk-client.ts` (endpoint sanitization, id validation, response
interpretation, retry classification and backoff loop),
`src/utils/search-response.ts` (search-result standardization) and
`src/utils/error-handling.ts` (the MCP response envelope), together with
theorems settling the spec claims about them.

JavaScript values are modelled by the inductive `JsValue` (numbers as
rationals, which cover every finite double; `NaN`/`Infinity` and function
values are outside the model).  Thrown values are modelled by `Thrown`
(an `Error` object with `name`, `message` and optional `cause`, or an
arbitrary non-`Error` value).  Effectful code is modelled by explicit
outcome passing: the network is an oracle giving each attempt's result.
-/

/-- Characters of a JavaScript value model.  `undefined` is the JS value
`undefined`; `null` is JS `null`.  Object fields are an ordered
association list, mirroring JS insertion order. -/
inductive JsValue where
  | null : JsValue
  | undefined : JsValue
  | bool : Bool → JsValue
  | num : ℚ → JsValue
  | str : String → JsValue
  | arr : List JsValue → JsValue
  | obj : List (String × JsValue) → JsValue

/-- JS truthiness: `undefined`, `null`, `false`, `0`, and the empty string
are falsy; every object and array is truthy. -/
def truthy : JsValue → Bool
  | .null => false
  | .undefined => false
  | .bool b => b
  | .num q => !(q == 0)
  | .str s => !(s == "")
  | .arr _ => true
  | .obj _ => true

/-- JS `typeof v === 'object'`: true for objects, arrays and `null`. -/
def jsTypeofObject : JsValue → Bool
  | .null => true
  | .obj _ => true
  | .arr _ => true
  | _ => false

/-- First-match lookup in an object's field list (JS objects cannot hold
duplicate keys, so first match is the match). -/
def lookupField : List (String × JsValue) → String → JsValue
  | [], _ => .undefined
  | (k', v) :: rest, k => if k' == k then v else lookupField rest k

/-- Read a property key as an array index: all-digit keys parse to the
index, anything else does not. -/
def parseIndex (cs : List Char) : Option Nat :=
  if !cs.isEmpty && cs.all (fun c => c.isDigit) then
    some (cs.foldl (fun n c => n * 10 + (c.toNat - 48)) 0)
  else none

/-- JS property read `v[k]`: field of an object, index of an array when
the key is numeric, `undefined` otherwise (primitive property reads used
by the code under verification all yield `undefined`). -/
def getField : JsValue → String → JsValue
  | .obj fs, k => lookupField fs k
  | .arr xs, k =>
    match parseIndex k.toList with
    | some i => xs.getD i .undefined
    | none => .undefined
  | _, _ => .undefined

/-- The enumerable own fields a JS object spread `{...v}` copies: the
fields of an object, the index-keyed elements of an array, nothing for
primitives. -/
def fieldsOf : JsValue → List (String × JsValue)
  | .obj fs => fs
  | .arr xs => xs.enum.map (fun p => (toString p.1, p.2))
  | _ => []

/-- JS `{...fs, k: v}` on a field list: if `k` is already present it keeps
its position and gets the new value, otherwise the pair is appended. -/
def objSet (fs : List (String × JsValue)) (k : String) (v : JsValue) :
    List (String × JsValue) :=
  if fs.any (fun p => p.1 == k) then
    fs.map (fun p => if p.1 == k then (k, v) else p)
  else fs ++ [(k, v)]

/-- JS object spread-with-override `{...r, k: v}` as a `JsValue`. -/
def objSetField (r : JsValue) (k : String) (v : JsValue) : JsValue :=
  .obj (objSet (fieldsOf r) k v)

/-- Whether `pat` matches at the start of `s` (character-exact). -/
def leadsWith : List Char → List Char → Bool
  | [], _ => true
  | _ :: _, [] => false
  | p :: ps, c :: cs => p == c && leadsWith ps cs

/-- Whether `pat` occurs contiguously anywhere in `s`; this is the
semantics of JS `s.includes(pat)` for non-empty literal patterns. -/
def containsSeq (pat : List Char) : List Char → Bool
  | [] => pat.isEmpty
  | c :: t => leadsWith pat (c :: t) || containsSeq pat t

/-- JS `s.includes(pat)` on strings. -/
def includesSub (s pat : String) : Bool :=
  containsSeq pat.toList s.toList

/-- ASCII lowering of one character, the fragment of JS `toLowerCase`
exercised by the code (all messages compared are ASCII). -/
def asciiLower (c : Char) : Char :=
  if 'A' ≤ c && c ≤ 'Z' then Char.ofNat (c.toNat + 32) else c

/-- Character list of `s.toLowerCase()`. -/
def lowerChars (s : String) : List Char :=
  s.toList.map asciiLower

/-- One greedy left-to-right pass of `s.replace(/\.\./g, '')`: each
non-overlapping `..` occurrence is removed, scanning resumes after the
match, exactly as the JS global regex replace does. -/
def stripDotPairs : List Char → List Char
  | '.' :: '.' :: r => stripDotPairs r
  | c :: r => c :: stripDotPairs r
  | [] => []

/-- One greedy left-to-right pass of `s.replace(/\/\//g, '/')`: each
non-overlapping `//` occurrence becomes a single `/`. -/
def collapseSlashPairs : List Char → List Char
  | '/' :: '/' :: r => '/' :: collapseSlashPairs r
  | c :: r => c :: collapseSlashPairs r
  | [] => []

/-- Embedding of `ZendeskClient.sanitizeEndpoint`: strip `..` pairs,
collapse `//` pairs, then ensure a leading `/` (the code's
`sanitized.startsWith('/')` test is the head-character test). -/
def sanitizeEndpoint (endpoint : String) : String :=
  let sanitized := collapseSlashPairs (stripDotPairs endpoint.toList)
  if sanitized.head? = some '/' then String.mk sanitized
  else String.mk ('/' :: sanitized)

/-- A JS `Error` object: constructor name, message, optional cause chain
(`new Error(msg, { cause })`). -/
inductive JsError where
  | mk : String → String → Option JsError → JsError

/-- Constructor name of the error (`error.name`). -/
def JsError.name : JsError → String
  | .mk n _ _ => n

/-- Message of the error (`error.message`). -/
def JsError.message : JsError → String
  | .mk _ m _ => m

/-- Cause of the error (`error.cause`). -/
def JsError.cause : JsError → Option JsError
  | .mk _ _ c => c

/-- A thrown JS value: either an `Error` instance or any other value
(JS can throw anything; `instanceof Error` distinguishes the two). -/
inductive Thrown where
  | err : JsError → Thrown
  | val : JsValue → Thrown

/-- Embedding of `ZendeskClient.isRetryableError`: non-`Error` values are
not retryable; an `AbortError` (the timeout abort) is retryable; otherwise
the lowercased message is scanned for rate-limit/server-error/timeout/
connection-failure markers. -/
def isRetryableError : Thrown → Bool
  | .val _ => false
  | .err e =>
    if e.name == "AbortError" then true
    else
      let message := lowerChars e.message
      containsSeq "429".toList message ||
      containsSeq "502".toList message ||
      containsSeq "503".toList message ||
      containsSeq "504".toList message ||
      containsSeq "timeout".toList message ||
      containsSeq "econnreset".toList message ||
      containsSeq "etimedout".toList message

/-- Embedding of the catch clause of `ZendeskClient.request`: an `Error`
is re-thrown as a fresh `Error` (name `"Error"`) with the context message
prepended and the original kept as `cause`; anything else is re-thrown
unchanged. -/
def wrapError : Thrown → Thrown
  | .err e => .err (.mk "Error" ("Zendesk request failed: " ++ e.message) (some e))
  | .val v => .val v

/-- The failure the runtime produces when the 30s timer fires and the
`AbortController` aborts the in-flight `fetch`: a `DOMException` named
`AbortError` whose message carries no HTTP-status or timeout substring. -/
def abortError : JsError :=
  .mk "AbortError" "The operation was aborted" none

/-- An HTTP response as `request` observes it: `ok`/`status` from the
fetch `Response`, the `content-type` header (absent is `none`), the body
as text, and the value `response.json()` would parse to. -/
structure HttpReply where
  ok : Bool
  status : Nat
  contentType : Option String
  textBody : String
  jsonBody : JsValue

/-- The code's test `contentType && contentType.includes('application/json')`:
a missing or empty header is falsy. -/
def contentTypeIsJson : Option String → Bool
  | none => false
  | some ct => !(ct == "") && includesSub ct "application/json"

/-- The canned success object returned for non-JSON success bodies. -/
def successValue : JsValue :=
  .obj [("success", .bool true)]

/-- Embedding of the response-interpretation core of `ZendeskClient.request`:
non-ok statuses raise `Zendesk API Error: <status> - <body>`; ok responses
with a JSON content type yield the parsed body; other ok responses yield
`{success: true}`. -/
def interpretReply (r : HttpReply) : Except Thrown JsValue :=
  if !r.ok then
    .error (.err (.mk "Error"
      ("Zendesk API Error: " ++ toString r.status ++ " - " ++ r.textBody) none))
  else if contentTypeIsJson r.contentType then
    .ok r.jsonBody
  else
    .ok successValue

/-- Embedding of `ZendeskClient.request` for one attempt, abstracting the
network as the outcome of `fetch` (either a thrown failure, e.g. the
timeout abort, or a reply).  The enclosing catch wraps every thrown
`Error` via `wrapError`; `credsOk` models the credentials presence check
at the top of the method. -/
def request (credsOk : Bool) (fetchOutcome : Except Thrown HttpReply) :
    Except Thrown JsValue :=
  if !credsOk then
    .error (wrapError (.err (.mk "Error"
      "Zendesk credentials not configured. Please set environment variables." none)))
  else
    match fetchOutcome with
    | .error t => .error (wrapError t)
    | .ok r =>
      match interpretReply r with
      | .ok v => .ok v
      | .error t => .error (wrapError t)

/-- The backoff delay computed before retrying after attempt `n`
(0-indexed): `Math.min(1000 * Math.pow(2, attempt), 5000)`. -/
def backoffDelay (attempt : Nat) : Nat :=
  min (1000 * 2 ^ attempt) 5000

/-- Embedding of the loop body of `ZendeskClient.requestWithRetry`.
`oracle n` is the outcome of `this.request` on attempt `n`; `fuel` is the
number of loop iterations left (`maxRetries - attempt`), making the
recursion structural.  Returns the final outcome, the number of attempts
made, and the list of delays slept between attempts.  When the loop
exits without an attempt (`maxRetries = 0`) the code throws the
still-undefined `lastError`, modelled as throwing the value `undefined`. -/
def retryLoop (oracle : Nat → Except Thrown JsValue) (maxRetries : Nat) :
    Nat → Nat → Except Thrown JsValue × Nat × List Nat
  | 0, _ => (.error (.val .undefined), 0, [])
  | fuel + 1, attempt =>
    match oracle attempt with
    | .ok v => (.ok v, 1, [])
    | .error e =>
      if attempt == maxRetries - 1 || !isRetryableError e then
        (.error e, 1, [])
      else
        let r := retryLoop oracle maxRetries fuel (attempt + 1)
        (r.1, r.2.1 + 1, backoffDelay attempt :: r.2.2)

/-- Embedding of `ZendeskClient.requestWithRetry` (default `maxRetries = 3`):
run the retry loop from attempt 0. -/
def requestWithRetry (oracle : Nat → Except Thrown JsValue)
    (maxRetries : Nat := 3) : Except Thrown JsValue × Nat × List Nat :=
  retryLoop oracle maxRetries maxRetries 0

/-- A JS number rendered to a string; for integral values this matches the
JS decimal rendering, which is all the code interpolates into paths and
messages (non-integral renderings are a model of the builtin). -/
def numToString (q : ℚ) : String :=
  if q.den == 1 then toString q.num else toString q

/-- Embedding of `ZendeskClient.validateId`: throw unless
`Number.isInteger(id) && id > 0` (integrality of a rational is `den = 1`). -/
def validateId (id : ℚ) : Except Thrown ℚ :=
  if !(id.den == 1) || id ≤ 0 then
    .error (.err (.mk "Error"
      ("Invalid ID: " ++ numToString id ++ ". ID must be a positive integer.") none))
  else
    .ok id

/-- The request a client method is about to issue: HTTP method, endpoint
path, and whether it goes through the retry wrapper. -/
structure RequestSpec where
  method : String
  endpoint : String
  viaRetry : Bool

/-- Embedding of `ZendeskClient.getTicket`: validate the id first; only
when validation succeeds is a request descriptor produced (the thrown
validation error aborts the method before any request is issued). -/
def getTicket (id : ℚ) : Except Thrown RequestSpec :=
  match validateId id with
  | .error e => .error e
  | .ok i => .ok ⟨"GET", "/tickets/" ++ numToString i ++ ".json", true⟩

/-- The fallback tag `defaultResultType || 'unknown'` of
`standardizeSearchResponse` (an absent or empty default is replaced). -/
def defTag : Option String → String
  | none => "unknown"
  | some s => if s == "" then "unknown" else s

/-- The ordered URL-substring rules of `standardizeSearchResponse`,
top-to-bottom, first match wins, falling back to `dflt`. -/
def inferTag (u : String) (dflt : String) : String :=
  if includesSub u "/tickets/" then "ticket"
  else if includesSub u "/users/" then "user"
  else if includesSub u "/organizations/" then "organization"
  else if includesSub u "/help_center/articles/" then "article"
  else if includesSub u "/groups/" then "group"
  else dflt

/-- Embedding of the per-element mapper inside `standardizeSearchResponse`:
non-objects become a bare tagged object; an element with a truthy
`result_type` is kept verbatim; otherwise the tag is inferred from a
truthy string `url` (or defaulted) and spread-assigned onto the element. -/
def stdResult (d : Option String) (result : JsValue) : JsValue :=
  if !truthy result || !jsTypeofObject result then
    .obj [("result_type", .str (defTag d))]
  else if truthy (getField result "result_type") then
    result
  else
    let resultType :=
      match getField result "url" with
      | .str u => if u == "" then defTag d else inferTag u (defTag d)
      | _ => defTag d
    objSetField result "result_type" (.str resultType)

/-- The `results` array `standardizeSearchResponse` works on:
`Array.isArray(rawResponse.results) ? rawResponse.results : []`. -/
def resultsOf (rawResponse : JsValue) : List JsValue :=
  match getField rawResponse "results" with
  | .arr xs => xs
  | _ => []

/-- Embedding of `standardizeSearchResponse` from
`src/utils/search-response.ts`.  A falsy or non-object payload yields the
early `{results: [], metadata: {}}`; otherwise each result is mapped
through `stdResult`, `metadata.total_count` is `rawResponse.count ||
results.length`, `page_info` is added when either pagination link is
truthy, and the output carries `count` verbatim plus
`next_page`/`previous_page` defaulted to `null`. -/
def standardizeSearchResponse (rawResponse : JsValue)
    (defaultResultType : Option String := none) : JsValue :=
  if !truthy rawResponse || !jsTypeofObject rawResponse then
    .obj [("results", .arr []), ("metadata", .obj [])]
  else
    let results := resultsOf rawResponse
    let standardizedResults := results.map (stdResult defaultResultType)
    let count := getField rawResponse "count"
    let nextPage := getField rawResponse "next_page"
    let prevPage := getField rawResponse "previous_page"
    let totalCount := if truthy count then count else .num (results.length : ℚ)
    let pageInfo : List (String × JsValue) :=
      if truthy nextPage || truthy prevPage then
        [("page_info", .obj
          [("has_next_page", .bool (truthy nextPage)),
           ("has_previous_page", .bool (truthy prevPage))])]
      else []
    .obj [("results", .arr standardizedResults),
          ("metadata", .obj (("total_count", totalCount) :: pageInfo)),
          ("count", count),
          ("next_page", if truthy nextPage then nextPage else .null),
          ("previous_page", if truthy prevPage then prevPage else .null)]

/-- Join strings with a separator (helper for the JSON rendering model). -/
def joinSep (sep : String) : List String → String
  | [] => ""
  | [x] => x
  | x :: y :: xs => x ++ sep ++ joinSep sep (y :: xs)

/-- Quote a string as a JSON literal (model of the builtin escaping; no
claim inspects the rendered text). -/
def jsQuote (s : String) : String :=
  "\"" ++ String.mk (s.toList.flatMap fun c =>
    if c == '"' || c == '\\' then ['\\', c] else [c]) ++ "\""

mutual

/-- Render a defined JS value as JSON text: a model of
`JSON.stringify(v, null, 2)` (whitespace layout abstracted; inside arrays
`undefined` prints as null, inside objects `undefined` fields are kept as
null rather than dropped — no claim depends on the rendered text, only on
its existence). -/
def jsonShow : JsValue → String
  | .null => "null"
  | .undefined => "null"
  | .bool b => if b then "true" else "false"
  | .num q => numToString q
  | .str s => jsQuote s
  | .arr xs => "[" ++ joinSep "," (jsonShowList xs) ++ "]"
  | .obj fs => "\x7b" ++ joinSep "," (jsonShowFields fs) ++ "\x7d"

def jsonShowList : List JsValue → List String
  | [] => []
  | x :: xs => jsonShow x :: jsonShowList xs

def jsonShowFields : List (String × JsValue) → List String
  | [] => []
  | (k, v) :: fs => (jsQuote k ++ ":" ++ jsonShow v) :: jsonShowFields fs

end

/-- Top-level `JSON.stringify(v, null, 2)`: `undefined` (like functions
and symbols, which are outside the model) stringifies to the *value*
`undefined`, every other value to a string. -/
def jsonStringifyTop : JsValue → Option String
  | .undefined => none
  | v => some (jsonShow v)

/-- One element of the MCP response content; `text` is kept as a raw JS
value because the code can (and on one input does) place a non-string
there. -/
structure McpContent where
  type : String
  text : JsValue

/-- The MCP tool response envelope: `content` plus the optional `isError`
flag (absent on success). -/
structure McpToolResponse where
  content : List McpContent
  isError : Option Bool

/-- The message text used on the failure path:
`error instanceof Error ? error.message : 'Unknown error'`. -/
def thrownMessage : Thrown → String
  | .err e => e.message
  | .val _ => "Unknown error"

/-- Embedding of `withErrorHandling` from `src/utils/error-handling.ts`,
applied to the outcome of the wrapped operation: a string result is the
text verbatim; otherwise the result is JSON-rendered (template-literal
interpolation turns a top-level `undefined` into the text "undefined"
when a success message is prefixed, and into the value `undefined` when
not); a thrown failure becomes the `Error: <message>` text with
`isError: true` and never propagates. -/
def withErrorHandling (successMessage : Option String)
    (outcome : Except Thrown JsValue) : McpToolResponse :=
  match outcome with
  | .ok (.str s) => ⟨[⟨"text", .str s⟩], none⟩
  | .ok v =>
    let text : JsValue :=
      match successMessage with
      | some m =>
        .str (m ++ "\n\n" ++ (match jsonStringifyTop v with
          | some s => s
          | none => "undefined"))
      | none =>
        match jsonStringifyTop v with
        | some s => .str s
        | none => .undefined
    ⟨[⟨"text", text⟩], none⟩
  | .error e => ⟨[⟨"text", .str ("Error: " ++ thrownMessage e)⟩], some true⟩

/-- The usable-URL test `result.url && typeof result.url === 'string'` of
`standardizeSearchResponse`: the url, when it is a truthy string. -/
def urlString (r : JsValue) : Option String :=
  match getField r "url" with
  | .str u => if u == "" then none else some u
  | _ => none

/-- The Retry Policy classification condition in the spec's words: the
failure carries the timeout/abort marker, or its message mentions HTTP
429, 502, 503, 504, a timeout string, or a connection-reset /
connection-timeout string (mention is case-insensitive substring, which
is how the code reads messages). -/
def retryableSpecified : Thrown → Prop
  | .val _ => False
  | .err e =>
    e.name = "AbortError" ∨
    containsSeq "429".toList (lowerChars e.message) = true ∨
    containsSeq "502".toList (lowerChars e.message) = true ∨
    containsSeq "503".toList (lowerChars e.message) = true ∨
    containsSeq "504".toList (lowerChars e.message) = true ∨
    containsSeq "timeout".toList (lowerChars e.message) = true ∨
    containsSeq "econnreset".toList (lowerChars e.message) = true ∨
    containsSeq "etimedout".toList (lowerChars e.message) = true

/-- The list of backoff delays slept when every attempt from `attempt` on
fails retryably, with `k` sleeps remaining. -/
def backoffSchedule : Nat → Nat → List Nat
  | _, 0 => []
  | attempt, k + 1 => backoffDelay attempt :: backoffSchedule (attempt + 1) k

theorem leadsWith_single (c : Char) (t : List Char) :
    leadsWith [c] t = (t.head? == some c) := by
  cases t with
  | nil => rfl
  | cons c' t' => simp [leadsWith, BEq.comm]

theorem leadsWith_pair (a b : Char) (t : List Char) :
    leadsWith [a, b] t = ((t.head? == some a) && (t.tail.head? == some b)) := by
  cases t with
  | nil => rfl
  | cons c' t' => simp [leadsWith, leadsWith_single, BEq.comm]

theorem stripDotPairs_head (s : List Char) :
    (stripDotPairs s).head? = some '.' → s.head? = some '.' := by
  induction s using stripDotPairs.induct with
  | case1 r ih => intro _; rfl
  | case2 c r h ih =>
    rw [stripDotPairs.eq_2 c r h]
    intro hc
    simpa using hc
  | case3 => intro h; simp [stripDotPairs] at h

theorem containsSeq_dots_strip (s : List Char) :
    containsSeq ['.', '.'] (stripDotPairs s) = false := by
  induction s using stripDotPairs.induct with
  | case1 r ih => simpa [stripDotPairs] using ih
  | case2 c r h ih =>
    rw [stripDotPairs.eq_2 c r h]
    simp only [containsSeq, Bool.or_eq_false_iff]
    refine ⟨?_, ih⟩
    rw [leadsWith_pair]
    by_cases hc : c = '.'
    · subst hc
      have hhd : ¬ (stripDotPairs r).head? = some '.' := by
        intro hcon
        have hr := stripDotPairs_head r hcon
        cases r with
        | nil => simp at hr
        | cons c0 r0 =>
          simp only [List.head?_cons, Option.some_inj] at hr
          exact h r0 rfl (by rw [hr])
      simp [hhd]
    · simp [hc]
  | case3 => rfl

theorem collapseSlashPairs_head (s : List Char) :
    (collapseSlashPairs s).head? = s.head? := by
  induction s using collapseSlashPairs.induct with
  | case1 r ih => rfl
  | case2 c r h ih => rw [collapseSlashPairs.eq_2 c r h]; rfl
  | case3 => rfl

theorem containsSeq_dots_collapse (s : List Char)
    (hs : containsSeq ['.', '.'] s = false) :
    containsSeq ['.', '.'] (collapseSlashPairs s) = false := by
  induction s using collapseSlashPairs.induct with
  | case1 r ih =>
    simp only [containsSeq, Bool.or_eq_false_iff] at hs
    simp only [collapseSlashPairs, containsSeq, Bool.or_eq_false_iff]
    exact ⟨by simp [leadsWith_pair], ih hs.2.2⟩
  | case2 c r h ih =>
    simp only [containsSeq, Bool.or_eq_false_iff] at hs
    rw [collapseSlashPairs.eq_2 c r h]
    simp only [containsSeq, Bool.or_eq_false_iff]
    refine ⟨?_, ih hs.2⟩
    rw [leadsWith_pair] at hs ⊢
    simp only [List.head?_cons, List.tail_cons] at hs ⊢
    rw [collapseSlashPairs_head]
    have h1 := hs.1
    cases r with
    | nil => simp
    | cons c0 r0 => simp at h1 ⊢; exact h1
  | case3 => rfl

/-- C2 (counterexample): the claim says the built path contains no `//`,
but the single-pass collapse only halves slash runs: the input `"////"`
sanitizes to `"//"`, which starts with `/` yet still contains `//`. -/
theorem c2_counterexample :
    sanitizeEndpoint "////" = "//" ∧
    includesSub (sanitizeEndpoint "////") "//" = true :=
  ⟨rfl, rfl⟩

/-- C2 (amended): for every input path the sanitized endpoint starts with
`/` and contains no `..` sequence; the no-`//` part of the claim is false
(see the counterexample) because `replace(/\/\//g, '/')` makes one
left-to-right pass, so a run of four or more slashes — or a `//` newly
formed by deleting a `..` between slashes — leaves `//` in the result. -/
theorem c2_sanitize_no_dots_leading_slash (endpoint : String) :
    (sanitizeEndpoint endpoint).toList.head? = some '/' ∧
    includesSub (sanitizeEndpoint endpoint) ".." = false := by
  have hdd : (".." : String).toList = ['.', '.'] := rfl
  have hbase : containsSeq ['.', '.']
      (collapseSlashPairs (stripDotPairs endpoint.toList)) = false :=
    containsSeq_dots_collapse _ (containsSeq_dots_strip _)
  simp only [sanitizeEndpoint, includesSub]
  rw [hdd]
  split_ifs with h
  · exact ⟨h, hbase⟩
  · refine ⟨rfl, ?_⟩
    show containsSeq ['.', '.'] ('/' :: _) = false
    simp only [containsSeq, Bool.or_eq_false_iff]
    exact ⟨by simp [leadsWith_pair], hbase⟩

/-- C1 (code bug): the timeout abort is retryable as raised (`AbortError`
name marker, checked by `isRetryableError`), but `request`'s catch clause
re-wraps every `Error` as a plain `Error` named `"Error"`, keeping the
marker only in the unread `cause`; the wrapped failure matches no
retryable pattern, so `requestWithRetry` classifies the timed-out attempt
as terminal and propagates it after exactly one attempt, with no further
attempt and no backoff sleep — contradicting the claim (and the dead
`AbortError` branch the code itself carries for this purpose). -/
theorem c1_timeout_not_retried :
    isRetryableError (.err abortError) = true ∧
    (∀ c : Option JsError,
      wrapError (.err (.mk "AbortError" "The operation was aborted" c)) =
        .err (.mk "Error" "Zendesk request failed: The operation was aborted"
          (some (.mk "AbortError" "The operation was aborted" c)))) ∧
    isRetryableError (wrapError (.err abortError)) = false ∧
    request true (.error (.err abortError)) = .error (wrapError (.err abortError)) ∧
    requestWithRetry (fun _ => request true (.error (.err abortError))) 3 =
      (.error (wrapError (.err abortError)), 1, []) :=
  ⟨rfl, fun _ => rfl, rfl, rfl, rfl⟩

/-- C4: the Retry Policy classifies a failure retryable exactly under the
spec's condition (abort marker or a message mentioning 429/502/503/504/
timeout/econnreset/etimedout), and any non-retryable first failure is
propagated after exactly one attempt with no backoff sleep. -/
theorem c4_retry_classification :
    (∀ t : Thrown, isRetryableError t = true ↔ retryableSpecified t) ∧
    (∀ (maxRetries : ℕ) (oracle : ℕ → Except Thrown JsValue) (e : Thrown),
      0 < maxRetries → oracle 0 = .error e → isRetryableError e = false →
      requestWithRetry oracle maxRetries = (.error e, 1, [])) := by
  constructor
  · intro t
    cases t with
    | val v => simp [isRetryableError, retryableSpecified]
    | err e =>
      by_cases h : e.name = "AbortError"
      · simp [isRetryableError, retryableSpecified, h]
      · simp only [isRetryableError, retryableSpecified, beq_iff_eq, if_neg h,
          Bool.or_eq_true]
        simp [h, or_assoc]
  · intro maxRetries oracle e hpos ho hr
    cases maxRetries with
    | zero => omega
    | succ m =>
      show retryLoop oracle (m + 1) (m + 1) 0 = _
      simp [retryLoop, ho, hr]

/-- Witness for C4 at the claim's own example: a failure with message
"401 Unauthorized" is terminal — one attempt, immediate propagation. -/
theorem c4_retry_classification_witness :
    requestWithRetry
      (fun _ => .error (.err (.mk "Error" "401 Unauthorized" none))) 3 =
      (.error (.err (.mk "Error" "401 Unauthorized" none)), 1, []) :=
  c4_retry_classification.2 3 _ _ (by norm_num) rfl rfl

/-- C8: on a successful HTTP response the Transport returns the parsed
JSON body unchanged when the response carries a JSON content type, and
the canned `{success: true}` object when it does not (e.g. the empty body
of a delete). -/
theorem c8_success_body (r : HttpReply) (hok : r.ok = true) :
    (contentTypeIsJson r.contentType = true →
      request true (.ok r) = .ok r.jsonBody) ∧
    (contentTypeIsJson r.contentType = false →
      request true (.ok r) = .ok successValue) := by
  constructor <;> intro hct <;> simp [request, interpretReply, hok, hct]

/-- Witness for C8: a 200 reply with a JSON content type yields its parsed
body verbatim. -/
theorem c8_success_body_witness :
    request true (.ok ⟨true, 200, some "application/json; charset=utf-8", "",
      .obj [("ticket", .obj [("id", .num 42)])]⟩) =
      .ok (.obj [("ticket", .obj [("id", .num 42)])]) :=
  (c8_success_body _ rfl).1 rfl

theorem backoffSchedule_eq_map (k : ℕ) :
    ∀ a : ℕ, backoffSchedule a k = (List.range k).map (fun n => backoffDelay (a + n)) := by
  induction k with
  | zero => intro a; rfl
  | succ k ih =>
    intro a
    rw [List.range_succ_eq_map]
    simp only [backoffSchedule, List.map_cons, Nat.add_zero, List.map_map]
    refine congrArg _ ?_
    rw [ih (a + 1)]
    refine List.map_congr_left ?_
    intro n _
    simp only [Function.comp_apply]
    congr 1
    omega

theorem retryLoop_all_retryable
    (oracle : ℕ → Except Thrown JsValue) (maxRetries : ℕ) (err : ℕ → Thrown)
    (hfail : ∀ n, n < maxRetries → oracle n = .error (err n))
    (hretry : ∀ n, n < maxRetries → isRetryableError (err n) = true) :
    ∀ (fuel attempt : ℕ), attempt + fuel = maxRetries → 0 < fuel →
    retryLoop oracle maxRetries fuel attempt =
      (.error (err (maxRetries - 1)), fuel, backoffSchedule attempt (fuel - 1)) := by
  intro fuel
  induction fuel with
  | zero => intro attempt _ h; omega
  | succ f ih =>
    intro attempt hsum _
    have ho := hfail attempt (by omega)
    cases f with
    | zero =>
      have hlast : (attempt == maxRetries - 1) = true := by simp; omega
      have hidx : maxRetries - 1 = attempt := by omega
      simp [retryLoop, ho, hlast, hidx, backoffSchedule]
    | succ f' =>
      have hne : (attempt == maxRetries - 1) = false := by simp; omega
      have hr := hretry attempt (by omega)
      have hrec := ih (attempt + 1) (by omega) (by omega)
      conv_lhs => rw [retryLoop]
      rw [ho]
      simp [hne, hr, hrec, backoffSchedule]

/-- C7: when every attempt fails retryably, `requestWithRetry` makes
exactly `maxRetries` attempts (default 3), sleeps
`min(1000 * 2^n, 5000)` before retrying after attempt `n` (0-indexed),
and propagates the last observed failure. -/
theorem c7_backoff_and_exhaustion
    (maxRetries : ℕ) (oracle : ℕ → Except Thrown JsValue) (err : ℕ → Thrown)
    (hpos : 0 < maxRetries)
    (hfail : ∀ n, n < maxRetries → oracle n = .error (err n))
    (hretry : ∀ n, n < maxRetries → isRetryableError (err n) = true) :
    requestWithRetry oracle maxRetries =
      (.error (err (maxRetries - 1)), maxRetries,
        (List.range (maxRetries - 1)).map (fun n => min (1000 * 2 ^ n) 5000)) := by
  show retryLoop oracle maxRetries maxRetries 0 = _
  rw [retryLoop_all_retryable oracle maxRetries err hfail hretry maxRetries 0
    (by omega) hpos]
  rw [backoffSchedule_eq_map]
  simp [backoffDelay]

/-- Witness for C7: three attempts all failing with a 503 message make
exactly 3 attempts with delays 1000 then 2000, and the final failure is
the one propagated. -/
theorem c7_backoff_and_exhaustion_witness :
    requestWithRetry
      (fun _ => .error (.err (.mk "Error" "Zendesk API Error: 503 - down" none))) 3 =
      (.error (.err (.mk "Error" "Zendesk API Error: 503 - down" none)), 3,
        [1000, 2000]) := by
  rw [c7_backoff_and_exhaustion 3 _ (fun _ => .err (.mk "Error" "Zendesk API Error: 503 - down" none))
    (by norm_num) (fun n _ => rfl) (fun n _ => rfl)]
  rfl

/-- C6: `validateId` succeeds (returning the id) exactly on positive
integers; on 0, negatives and non-integers `getTicket` raises the
validation error and produces no request descriptor at all — the failure
happens before any request interpolating the id is issued. -/
theorem c6_validate_id (id : ℚ) :
    (validateId id = .ok id ↔ id.den = 1 ∧ 0 < id) ∧
    (id.den = 1 ∧ 0 < id →
      getTicket id = .ok ⟨"GET", "/tickets/" ++ numToString id ++ ".json", true⟩) ∧
    (¬(id.den = 1 ∧ 0 < id) →
      getTicket id = .error (.err (.mk "Error"
        ("Invalid ID: " ++ numToString id ++ ". ID must be a positive integer.")
        none))) := by
  by_cases h : id.den = 1 ∧ 0 < id
  · have hc : (!(id.den == 1) || decide (id ≤ 0)) = false := by
      simp [h.1, not_le.mpr h.2]
    refine ⟨?_, fun _ => ?_, fun hcon => absurd h hcon⟩
    · simp [validateId, hc, h]
    · simp [getTicket, validateId, hc]
  · have hc : (!(id.den == 1) || decide (id ≤ 0)) = true := by
      rcases not_and_or.mp h with h1 | h1
      · simp [h1]
      · simp [not_lt.mp h1]
    refine ⟨?_, fun hcon => absurd hcon h, fun _ => ?_⟩
    · simp [validateId, hc, h]
    · simp [getTicket, validateId, hc]

/-- Witness for C6: id 42 validates and yields the ticket request, while
id 0 fails validation with the Invalid ID error and no request. -/
theorem c6_validate_id_witness :
    getTicket 42 = .ok ⟨"GET", "/tickets/42.json", true⟩ ∧
    getTicket 0 = .error (.err (.mk "Error"
      "Invalid ID: 0. ID must be a positive integer." none)) :=
  ⟨((c6_validate_id 42).2.1 (by norm_num)).trans rfl,
   ((c6_validate_id 0).2.2 (by norm_num)).trans rfl⟩

theorem lookupField_objSet (fs : List (String × JsValue)) (k : String) (v : JsValue) :
    lookupField (objSet fs k v) k = v := by
  unfold objSet
  by_cases h : fs.any (fun p => p.1 == k) = true
  · rw [if_pos h]
    induction fs with
    | nil => simp at h
    | cons p rest ih =>
      obtain ⟨a, b⟩ := p
      simp only [List.any_cons, Bool.or_eq_true] at h
      by_cases hp : (a == k) = true
      · rw [List.map_cons]
        have hel : (if (a, b).1 == k then (k, v) else (a, b)) = (k, v) := by
          simp [hp]
        rw [hel]
        simp [lookupField]
      · have h2 : rest.any (fun p => p.1 == k) = true := by
          rcases h with h | h
          · exact absurd h hp
          · exact h
        rw [List.map_cons]
        have hel : (if (a, b).1 == k then (k, v) else (a, b)) = (a, b) := by
          simp [hp]
        rw [hel]
        simp only [lookupField]
        rw [if_neg (by simpa using hp)]
        exact ih h2
  · rw [if_neg h]
    induction fs with
    | nil => simp [lookupField]
    | cons p rest ih =>
      obtain ⟨a, b⟩ := p
      simp only [List.any_cons, Bool.or_eq_true, not_or] at h
      simp only [List.cons_append, lookupField]
      rw [if_neg (by simpa using h.1)]
      exact ih (by simpa using h.2)

theorem getField_objSetField (r : JsValue) (k : String) (v : JsValue) :
    getField (objSetField r k v) k = v := by
  simp [objSetField, getField, lookupField_objSet]

theorem defTag_truthy (d : Option String) : truthy (.str (defTag d)) = true := by
  cases d with
  | none => rfl
  | some s =>
    by_cases hs : (s == "") = true
    · have hd : defTag (some s) = "unknown" := by simp [defTag, hs]
      rw [hd]; rfl
    · have hd : defTag (some s) = s := by simp [defTag, hs]
      rw [hd]
      cases hb : (s == "") with
      | true => exact absurd hb hs
      | false => simp [truthy, hb]

theorem inferTag_truthy (u : String) (d : Option String) :
    truthy (.str (inferTag u (defTag d))) = true := by
  unfold inferTag
  split_ifs <;> first | rfl | exact defTag_truthy d

theorem getField_arr_result_type (xs : List JsValue) :
    getField (.arr xs) "result_type" = .undefined := rfl

theorem stdResult_result_type (d : Option String) (r : JsValue) :
    truthy (getField (stdResult d r) "result_type") = true := by
  simp only [stdResult]
  split_ifs with h1 h2
  · simpa [getField, lookupField] using defTag_truthy d
  · exact h2
  · rw [getField_objSetField]
    rcases hu : getField r "url" with _ | _ | b | q | u | xs | gs
    · exact defTag_truthy d
    · exact defTag_truthy d
    · exact defTag_truthy d
    · exact defTag_truthy d
    · by_cases he : (u == "") = true
      · simp only [he, if_true]
        exact defTag_truthy d
      · simp only [he, Bool.false_eq_true, if_false]
        exact inferTag_truthy u d
    · exact defTag_truthy d
    · exact defTag_truthy d

theorem stdResult_obj (d : Option String) (r : JsValue) :
    ∃ gs, stdResult d r = .obj gs := by
  simp only [stdResult]
  split_ifs with h1 h2
  · exact ⟨_, rfl⟩
  · simp only [Bool.or_eq_true, Bool.not_eq_true', not_or] at h1
    cases r with
    | null => simp [truthy] at h1
    | undefined => simp [truthy] at h1
    | bool b => simp [jsTypeofObject] at h1
    | num q => simp [jsTypeofObject] at h1
    | str s => simp [jsTypeofObject] at h1
    | arr xs => rw [getField_arr_result_type] at h2; simp [truthy] at h2
    | obj gs => exact ⟨gs, rfl⟩
  · exact ⟨_, rfl⟩

theorem stdResult_idem (d : Option String) (r : JsValue) :
    stdResult d (stdResult d r) = stdResult d r := by
  obtain ⟨gs, hgs⟩ := stdResult_obj d r
  have hrt := stdResult_result_type d r
  rw [hgs] at hrt ⊢
  have c1 : (!truthy (JsValue.obj gs) || !jsTypeofObject (JsValue.obj gs)) = false := rfl
  conv_lhs => rw [stdResult]
  simp only [c1, Bool.false_eq_true, if_false, hrt, if_true]

theorem std_eq (x : JsValue) (d : Option String)
    (h1 : truthy x = true) (h2 : jsTypeofObject x = true) :
    standardizeSearchResponse x d = .obj
      [("results", .arr ((resultsOf x).map (stdResult d))),
       ("metadata", .obj (("total_count",
          if truthy (getField x "count") then getField x "count"
          else .num ((resultsOf x).length : ℚ)) ::
          (if truthy (getField x "next_page") || truthy (getField x "previous_page") then
            [("page_info", .obj
              [("has_next_page", .bool (truthy (getField x "next_page"))),
               ("has_previous_page", .bool (truthy (getField x "previous_page")))])]
           else []))),
       ("count", getField x "count"),
       ("next_page",
         if truthy (getField x "next_page") then getField x "next_page" else .null),
       ("previous_page",
         if truthy (getField x "previous_page") then getField x "previous_page"
         else .null)] := by
  simp [standardizeSearchResponse, h1, h2]

/-- C5: for every raw payload the standardized `results` field is an
array all of whose elements carry a truthy (non-empty) `result_type`;
when an element lacks one, the tag is inferred from a usable string `url`
by the ordered first-match rules embodied in `inferTag`
(`/tickets/` → ticket, `/users/` → user, `/organizations/` →
organization, `/help_center/articles/` → article, `/groups/` → group),
and otherwise is the provided default tag or the fixed fallback
"unknown" (`defTag`). -/
theorem c5_result_type_invariant :
    (∀ (raw : JsValue) (d : Option String), ∃ rs,
      getField (standardizeSearchResponse raw d) "results" = .arr rs ∧
      ∀ e ∈ rs, truthy (getField e "result_type") = true) ∧
    (∀ (d : Option String) (r : JsValue) (u : String),
      truthy r = true → jsTypeofObject r = true →
      truthy (getField r "result_type") = false →
      urlString r = some u →
      getField (stdResult d r) "result_type" = .str (inferTag u (defTag d))) ∧
    (∀ (d : Option String) (r : JsValue),
      truthy r = true → jsTypeofObject r = true →
      truthy (getField r "result_type") = false →
      urlString r = none →
      getField (stdResult d r) "result_type" = .str (defTag d)) := by
  refine ⟨?_, ?_, ?_⟩
  · intro raw d
    by_cases h : (!truthy raw || !jsTypeofObject raw) = true
    · refine ⟨[], ?_, by simp⟩
      simp only [standardizeSearchResponse, h, if_true]
      rfl
    · have h1 : truthy raw = true := by
        cases hx : truthy raw
        · exact absurd (by simp [hx]) h
        · rfl
      have h2 : jsTypeofObject raw = true := by
        cases hx : jsTypeofObject raw
        · exact absurd (by simp [hx]) h
        · rfl
      rw [std_eq raw d h1 h2]
      refine ⟨(resultsOf raw).map (stdResult d), rfl, ?_⟩
      intro e he
      simp only [List.mem_map] at he
      obtain ⟨a, -, rfl⟩ := he
      exact stdResult_result_type d a
  · intro d r u h1 h2 h3 hu
    have hc1 : (!truthy r || !jsTypeofObject r) = false := by rw [h1, h2]; rfl
    simp only [stdResult, hc1, Bool.false_eq_true, if_false, h3]
    rw [getField_objSetField]
    rcases huu : getField r "url" with _ | _ | b | q | u0 | xs | gs
    · simp only [urlString, huu] at hu
      exact Option.noConfusion hu
    · simp only [urlString, huu] at hu
      exact Option.noConfusion hu
    · simp only [urlString, huu] at hu
      exact Option.noConfusion hu
    · simp only [urlString, huu] at hu
      exact Option.noConfusion hu
    · simp only [urlString, huu] at hu
      by_cases he : (u0 == "") = true
      · simp [he] at hu
      · simp only [he, Bool.false_eq_true, if_false, Option.some_inj] at hu
        subst hu
        simp [he]
    · simp only [urlString, huu] at hu
      exact Option.noConfusion hu
    · simp only [urlString, huu] at hu
      exact Option.noConfusion hu
  · intro d r h1 h2 h3 hu
    have hc1 : (!truthy r || !jsTypeofObject r) = false := by rw [h1, h2]; rfl
    simp only [stdResult, hc1, Bool.false_eq_true, if_false, h3]
    rw [getField_objSetField]
    rcases huu : getField r "url" with _ | _ | b | q | u0 | xs | gs
    · rfl
    · rfl
    · rfl
    · rfl
    · simp only [urlString, huu] at hu
      by_cases he : (u0 == "") = true
      · simp [he]
      · simp [he] at hu
    · rfl
    · rfl

/-- Witness for C5: an untagged result whose url contains `/tickets/` is
tagged "ticket"; one without a usable url gets the default tag; and a
non-object element in a concrete payload ends up truthy-tagged. -/
theorem c5_result_type_invariant_witness :
    getField (stdResult none (.obj [("url", .str "/tickets/7.json")]))
      "result_type" = .str "ticket" ∧
    getField (stdResult (some "article") (.obj [("id", .num 1)]))
      "result_type" = .str "article" ∧
    truthy (getField (stdResult none (.num 3)) "result_type") = true := by
  refine ⟨?_, ?_, ?_⟩
  · exact (c5_result_type_invariant.2.1 none
      (.obj [("url", .str "/tickets/7.json")]) "/tickets/7.json"
      rfl rfl rfl rfl).trans rfl
  · exact (c5_result_type_invariant.2.2 (some "article")
      (.obj [("id", .num 1)]) rfl rfl rfl rfl).trans rfl
  · obtain ⟨rs, hrs, hall⟩ :=
      c5_result_type_invariant.1 (.obj [("results", .arr [.num 3])]) none
    have he : JsValue.arr rs = JsValue.arr [stdResult none (.num 3)] :=
      hrs.symm.trans rfl
    injection he with h
    subst h
    exact hall _ (by simp)

/-- C10: `metadata.total_count` is the raw `count` field when that count
is truthy and otherwise the length of the results array (so a backend
`count: 0` beside a non-empty array reports the array length), and any
falsy or non-object element of `results` is replaced by the bare
`{result_type: <default or "unknown">}` object, discarding its value. -/
theorem c10_total_count_and_non_objects :
    (∀ (fs : List (String × JsValue)) (d : Option String),
      getField (getField (standardizeSearchResponse (.obj fs) d) "metadata")
          "total_count" =
        (if truthy (getField (.obj fs) "count") then getField (.obj fs) "count"
         else .num ((resultsOf (.obj fs)).length : ℚ))) ∧
    (∀ (d : Option String) (r : JsValue),
      (truthy r && jsTypeofObject r) = false →
      stdResult d r = .obj [("result_type", .str (defTag d))]) := by
  constructor
  · intro fs d
    rw [std_eq (.obj fs) d rfl rfl]
    rfl
  · intro d r h
    have hc : (!truthy r || !jsTypeofObject r) = true := by
      rcases Bool.and_eq_false_iff.mp h with h' | h' <;> simp [h']
    simp only [stdResult, hc, if_true]

/-- Witness for C10: count 0 beside one result yields total_count 1, and
the non-object element `null` is replaced by the bare tagged object. -/
theorem c10_total_count_and_non_objects_witness :
    getField (getField (standardizeSearchResponse
        (.obj [("count", .num 0), ("results", .arr [.null])]) none) "metadata")
      "total_count" = .num ((1 : ℕ) : ℚ) ∧
    stdResult none .null = .obj [("result_type", .str "unknown")] :=
  ⟨(c10_total_count_and_non_objects.1
      [("count", .num 0), ("results", .arr [.null])] none).trans rfl,
   (c10_total_count_and_non_objects.2 none .null rfl).trans rfl⟩

theorem nullDefault_idem (v : JsValue) :
    (if truthy (if truthy v then v else .null)
     then (if truthy v then v else .null) else .null) =
      (if truthy v then v else .null) := by
  cases h : truthy v
  · simp [h, truthy]
  · simp [h]

/-- C9 (counterexample): idempotence fails on a non-object payload such
as `null` — the first pass returns the early `{results: [], metadata: {}}`
whose `next_page` is absent (undefined), while the second pass fills
`next_page` with `null`, so the two standardizations disagree on
`next_page`. -/
theorem c9_counterexample :
    getField (standardizeSearchResponse .null) "next_page" = .undefined ∧
    getField (standardizeSearchResponse (standardizeSearchResponse .null))
      "next_page" = .null ∧
    JsValue.undefined ≠ JsValue.null :=
  ⟨rfl, rfl, fun h => JsValue.noConfusion h⟩

/-- C9 (amended): restricted to payloads that are truthy objects (or
arrays) — which every standardized response itself is — standardization
is idempotent on `results`, `count`, `next_page` and `previous_page`;
for primitive/null payloads the claim fails only in that the first pass
omits `count`/`next_page`/`previous_page` (undefined) while re-running
fills the page links with `null` (see the counterexample). -/
theorem c9_idempotent_on_objects (x : JsValue) (d : Option String)
    (h1 : truthy x = true) (h2 : jsTypeofObject x = true) :
    getField (standardizeSearchResponse (standardizeSearchResponse x d) d)
        "results" = getField (standardizeSearchResponse x d) "results" ∧
    getField (standardizeSearchResponse (standardizeSearchResponse x d) d)
        "count" = getField (standardizeSearchResponse x d) "count" ∧
    getField (standardizeSearchResponse (standardizeSearchResponse x d) d)
        "next_page" = getField (standardizeSearchResponse x d) "next_page" ∧
    getField (standardizeSearchResponse (standardizeSearchResponse x d) d)
        "previous_page" = getField (standardizeSearchResponse x d) "previous_page" := by
  rw [std_eq x d h1 h2]
  refine ⟨?_, rfl, nullDefault_idem (getField x "next_page"),
    nullDefault_idem (getField x "previous_page")⟩
  show JsValue.arr (((resultsOf x).map (stdResult d)).map (stdResult d)) =
    JsValue.arr ((resultsOf x).map (stdResult d))
  rw [List.map_map]
  refine congrArg _ (List.map_congr_left ?_)
  intro a _
  exact stdResult_idem d a

/-- Witness for C9: a concrete already-tagged object payload round-trips
through a second standardization with identical results. -/
theorem c9_idempotent_on_objects_witness :
    getField (standardizeSearchResponse (standardizeSearchResponse
        (.obj [("results", .arr [.obj [("result_type", .str "ticket")]]),
               ("count", .num 1)]) none) none) "results" =
      getField (standardizeSearchResponse
        (.obj [("results", .arr [.obj [("result_type", .str "ticket")]]),
               ("count", .num 1)]) none) "results" :=
  (c9_idempotent_on_objects
    (.obj [("results", .arr [.obj [("result_type", .str "ticket")]]),
           ("count", .num 1)]) none rfl rfl).1

/-- C3 (counterexample): a wrapped operation that resolves with the value
`undefined` and has no canned success message produces
`{content: [{type: 'text', text: undefined}]}` — `JSON.stringify(undefined,
null, 2)` is `undefined`, so the `text` member is not a string, violating
the claimed single shape `{content: [{type: "text", text: string}]}`. -/
theorem c3_counterexample :
    withErrorHandling none (.ok .undefined) = ⟨[⟨"text", .undefined⟩], none⟩ ∧
    ¬ ∃ s : String,
      (withErrorHandling none (.ok .undefined)).content = [⟨"text", .str s⟩] := by
  refine ⟨rfl, ?_⟩
  rintro ⟨s, hs⟩
  have hs' : ([⟨"text", JsValue.undefined⟩] : List McpContent) =
      [⟨"text", JsValue.str s⟩] := hs
  injection hs' with h1 _
  injection h1 with _ h2
  exact JsValue.noConfusion h2

/-- C3 (amended): every outcome of a wrapped operation yields the single
envelope shape `{content: [{type: 'text', text}], isError?}` — with
`isError: true` exactly on a thrown failure, which never propagates and
is reported as the text `Error: <message>`; a string result is the text
verbatim; the text is a string for every success carrying a success
message and for every success whose result is not `undefined`; the sole
exception (see the counterexample) is a resolved `undefined` with no
success message, whose text is the value `undefined`. -/
theorem c3_envelope (sm : Option String) (outcome : Except Thrown JsValue) :
    ∃ t : JsValue,
      withErrorHandling sm outcome =
        ⟨[⟨"text", t⟩],
          match outcome with
          | .error _ => some true
          | .ok _ => none⟩ ∧
      (∀ e, outcome = .error e → t = .str ("Error: " ++ thrownMessage e)) ∧
      (∀ s, outcome = .ok (.str s) → t = .str s) ∧
      (∀ v, outcome = .ok v → v ≠ .undefined → ∃ s0, t = .str s0) ∧
      (∀ v m, outcome = .ok v → sm = some m → ∃ s0, t = .str s0) := by
  cases outcome with
  | error e =>
    refine ⟨.str ("Error: " ++ thrownMessage e), rfl, ?_, ?_, ?_, ?_⟩
    · intro e' he; cases he; rfl
    · intro s hs; cases hs
    · intro v hv; cases hv
    · intro v m hv; cases hv
  | ok v =>
    cases v with
    | str s =>
      refine ⟨.str s, rfl, ?_, ?_, ?_, ?_⟩
      · intro e he; cases he
      · intro s' hs; cases hs; rfl
      · intro v' hv _; exact ⟨s, rfl⟩
      · intro v' m hv _; exact ⟨s, rfl⟩
    | undefined =>
      cases sm with
      | none =>
        refine ⟨.undefined, rfl, ?_, ?_, ?_, ?_⟩
        · intro e he; cases he
        · intro s' hs; cases hs
        · intro v' hv hne; cases hv; exact absurd rfl hne
        · intro v' m hv hm; cases hm
      | some m =>
        refine ⟨.str (m ++ "\n\n" ++ "undefined"), rfl, ?_, ?_, ?_, ?_⟩
        · intro e he; cases he
        · intro s' hs; cases hs
        · intro v' hv hne; cases hv; exact absurd rfl hne
        · intro v' m' hv hm; exact ⟨_, rfl⟩
    | null =>
      cases sm with
      | none =>
        refine ⟨.str (jsonShow .null), rfl, ?_, ?_, ?_, ?_⟩
        · intro e he; cases he
        · intro s' hs; cases hs
        · intro v' hv _; exact ⟨_, rfl⟩
        · intro v' m hv _; exact ⟨_, rfl⟩
      | some m =>
        refine ⟨.str (m ++ "\n\n" ++ jsonShow .null), rfl, ?_, ?_, ?_, ?_⟩
        · intro e he; cases he
        · intro s' hs; cases hs
        · intro v' hv _; exact ⟨_, rfl⟩
        · intro v' m' hv _; exact ⟨_, rfl⟩
    | bool b =>
      cases sm with
      | none =>
        refine ⟨.str (jsonShow (.bool b)), rfl, ?_, ?_, ?_, ?_⟩
        · intro e he; cases he
        · intro s' hs; cases hs
        · intro v' hv _; exact ⟨_, rfl⟩
        · intro v' m hv _; exact ⟨_, rfl⟩
      | some m =>
        refine ⟨.str (m ++ "\n\n" ++ jsonShow (.bool b)), rfl, ?_, ?_, ?_, ?_⟩
        · intro e he; cases he
        · intro s' hs; cases hs
        · intro v' hv _; exact ⟨_, rfl⟩
        · intro v' m' hv _; exact ⟨_, rfl⟩
    | num q =>
      cases sm with
      | none =>
        refine ⟨.str (jsonShow (.num q)), rfl, ?_, ?_, ?_, ?_⟩
        · intro e he; cases he
        · intro s' hs; cases hs
        · intro v' hv _; exact ⟨_, rfl⟩
        · intro v' m hv _; exact ⟨_, rfl⟩
      | some m =>
        refine ⟨.str (m ++ "\n\n" ++ jsonShow (.num q)), rfl, ?_, ?_, ?_, ?_⟩
        · intro e he; cases he
        · intro s' hs; cases hs
        · intro v' hv _; exact ⟨_, rfl⟩
        · intro v' m' hv _; exact ⟨_, rfl⟩
    | arr xs =>
      cases sm with
      | none =>
        refine ⟨.str (jsonShow (.arr xs)), rfl, ?_, ?_, ?_, ?_⟩
        · intro e he; cases he
        · intro s' hs; cases hs
        · intro v' hv _; exact ⟨_, rfl⟩
        · intro v' m hv _; exact ⟨_, rfl⟩
      | some m =>
        refine ⟨.str (m ++ "\n\n" ++ jsonShow (.arr xs)), rfl, ?_, ?_, ?_, ?_⟩
        · intro e he; cases he
        · intro s' hs; cases hs
        · intro v' hv _; exact ⟨_, rfl⟩
        · intro v' m' hv _; exact ⟨_, rfl⟩
    | obj gs =>
      cases sm with
      | none =>
        refine ⟨.str (jsonShow (.obj gs)), rfl, ?_, ?_, ?_, ?_⟩
        · intro e he; cases he
        · intro s' hs; cases hs
        · intro v' hv _; exact ⟨_, rfl⟩
        · intro v' m hv _; exact ⟨_, rfl⟩
      | some m =>
        refine ⟨.str (m ++ "\n\n" ++ jsonShow (.obj gs)), rfl, ?_, ?_, ?_, ?_⟩
        · intro e he; cases he
        · intro s' hs; cases hs
        · intro v' hv _; exact ⟨_, rfl⟩
        · intro v' m' hv _; exact ⟨_, rfl⟩

/-- Witness for C3: a thrown failure is absorbed into the envelope with
`isError: true` and the message text, by the theorem itself. -/
theorem c3_envelope_witness :
    withErrorHandling none (.error (.err (.mk "Error" "boom" none))) =
      ⟨[⟨"text", .str "Error: boom"⟩], some true⟩ := by
  obtain ⟨t, ht, herr, -, -, -⟩ :=
    c3_envelope none (.error (.err (.mk "Error" "boom" none)))
  rw [ht, herr _ rfl]
  rfl
